import Mathlib

/-!
Verification of the didpoop backend core: the request-scoped batched
relational loading layer and the session-authentication pipeline.

The Rust source under `src/` is embedded shallowly: SQL queries over the
Postgres tables become pure functions over an explicit `DB` record of row
lists, `HashMap` accumulation becomes association-list insertion with
replacement, and fallible code returns `Except`.  The `crypto` module is
declared in `main.rs` (`mod crypto`) but its file is not under `src/`, so
its functions are modelled from the spec (see the doc comments below).
-/

namespace Didpoop

/-- Association-list lookup: the first binding of the key wins. -/
def alookup {K V : Type} [DecidableEq K] : List (K × V) → K → Option V
  | [], _ => none
  | (k1, v1) :: rest, k => if k = k1 then some v1 else alookup rest k

/-- `HashMap.insert` semantics over an association list: replace the
existing binding of the key, or append a new binding. -/
def ainsert {K V : Type} [DecidableEq K] : List (K × V) → K → V → List (K × V)
  | [], k, v => [(k, v)]
  | (k1, v1) :: rest, k, v =>
    if k = k1 then (k, v) :: rest else (k1, v1) :: ainsert rest k v

/-- Lower-case hex digit for a value below 16 (as in the `hex` crate). -/
def hexChar (n : Nat) : Char :=
  if n < 10 then Char.ofNat (48 + n) else Char.ofNat (87 + n)

/-- Two hex digits of one byte. -/
def hexEncodeByte (b : Nat) : List Char := [hexChar (b / 16 % 16), hexChar (b % 16)]

/-- `hex::encode`: lower-case hex of a byte string. -/
def hexEncode (bs : List Nat) : String := String.mk ((bs.map hexEncodeByte).flatten)

/-- Decode failures of the `hex` crate that the code can observe. -/
inductive FromHexError
  | InvalidHexCharacter
  | OddLength
deriving DecidableEq, Repr

/-- Value of one hex digit, accepting both cases, as in the `hex` crate. -/
def hexCharVal (c : Char) : Option Nat :=
  if 48 ≤ c.toNat ∧ c.toNat ≤ 57 then some (c.toNat - 48)
  else if 97 ≤ c.toNat ∧ c.toNat ≤ 102 then some (c.toNat - 87)
  else if 65 ≤ c.toNat ∧ c.toNat ≤ 70 then some (c.toNat - 55)
  else none

/-- `hex::decode` over a character list, two digits per byte. -/
def hexDecodeChars : List Char → Except FromHexError (List Nat)
  | [] => .ok []
  | [_] => .error .OddLength
  | a :: b :: rest =>
    match hexCharVal a, hexCharVal b with
    | some x, some y => (hexDecodeChars rest).map (fun t => (16 * x + y) :: t)
    | _, _ => .error .InvalidHexCharacter

/-- `hex::decode` of a string. -/
def hexDecode (s : String) : Except FromHexError (List Nat) := hexDecodeChars s.data

/-- The bytes of a string, at the granularity the modelled crypto needs. -/
def strBytes (s : String) : List Nat := s.data.map Char.toNat

/-- One mixing step of the modelled digests (32-bit accumulator). -/
def mix (acc b : Nat) : Nat := (acc * 131 + b + 13) % 4294967296

/-- The four little-endian bytes of a 32-bit accumulator. -/
def natBytes4 (h : Nat) : List Nat :=
  [h % 256, h / 256 % 256, h / 65536 % 256, h / 16777216 % 256]

/-- Modelled from the spec: `crypto::derive_password_hash` (crypto.rs is not
under src/) is a deterministic salted one-way derivation — "same
password+salt always yields the same digest" (§4.1). -/
def derive_password_hash (pw salt : List Nat) : List Nat :=
  natBytes4 ((salt ++ pw).foldl mix 1)

/-- Modelled from the spec: `crypto::hmac_sign` (crypto.rs is not under
src/) computes a keyed signature of the message under the process-wide
signing key (§4.2). -/
def hmac_sign (key msg : String) : String :=
  hexEncode (natBytes4 ((strBytes key ++ strBytes msg).foldl mix 5))

/-- Modelled from the spec: `ring::constant_time::verify_slices_are_equal`
is an external dependency of `login`; per §4.1 it scans the full byte
strings with no early exit.  `ctScan` returns the number of differing
positions together with the number of byte comparisons performed. -/
def ctScan (a b : List Nat) : Nat × Nat :=
  (a.zip b).foldl
    (fun acc p => (acc.1 + (if p.1 = p.2 then 0 else 1), acc.2 + 1)) (0, 0)

/-- `verify_slices_are_equal` succeeds iff lengths match and no position
differs (`true` stands for `Ok`). -/
def verify_slices_are_equal (a b : List Nat) : Bool :=
  decide (a.length = b.length) && decide ((ctScan a b).1 = 0)

/-- Number of byte comparisons `verify_slices_are_equal` performs (zero
when the length precheck already fails). -/
def comparison_steps (a b : List Nat) : Nat :=
  if a.length = b.length then (ctScan a b).2 else 0

/-- The error taxonomy of `error.rs` / `main.rs` (`AppError`).  The sqlx
payloads carry no information our embedding can observe. -/
inductive AppError
  | E (msg : String)
  | DBNotFound
  | DB
  | Unauthorized (msg : String)
  | Forbidden (msg : String)
  | BadRequest (msg : String)
  | Hex (e : FromHexError)
deriving DecidableEq, Repr

/-- `AppError::is_db_not_found`. -/
def AppError.is_db_not_found : AppError → Bool
  | .DBNotFound => true
  | _ => false

/-- The fields of `Config` the core reads (config.rs / main.rs). -/
structure Config where
  cookie_name : String
  real_domain : Option String
  secure_cookie : Bool
  auth_expiration_seconds : Nat
  signing_key : String
deriving DecidableEq, Repr

/-- `Config::get_real_domain`. -/
def Config.get_real_domain (c : Config) : String := c.real_domain.getD "localhost"

/-- Row of `poop.users` (struct `User`). -/
structure UserRow where
  id : Int
  email : String
  name : String
  pw_salt : String
  pw_hash : String
  deleted : Bool
  created : Int
  modified : Int
deriving DecidableEq, Repr

/-- Row of `poop.creatures`. -/
structure CreatureRow where
  id : Int
  creator_id : Int
  name : String
  deleted : Bool
  created : Int
  modified : Int
deriving DecidableEq, Repr

/-- Row of `poop.creature_access`. -/
structure CreatureAccessRow where
  id : Int
  creature_id : Int
  user_id : Int
  creator_id : Int
  kind : String
  deleted : Bool
deriving DecidableEq, Repr

/-- Row of `poop.auth_tokens`. -/
structure AuthTokenRow where
  user_id : Int
  hash : String
  expires : Int
  deleted : Bool
deriving DecidableEq, Repr

/-- The joined row `select c.*, ca.user_id, ca.kind` (struct
`CreatureRelation` in models.rs / main.rs). -/
structure CreatureRelation where
  id : Int
  user_id : Int
  kind : String
  creator_id : Int
  name : String
  deleted : Bool
  created : Int
  modified : Int
deriving DecidableEq, Repr

/-- The visible database state. -/
structure DB where
  users : List UserRow
  creatures : List CreatureRow
  creature_access : List CreatureAccessRow
  auth_tokens : List AuthTokenRow
deriving DecidableEq, Repr

/-- Column mapping of `select c.*, ca.user_id, ca.kind` into
`CreatureRelation`. -/
def mkRelation (c : CreatureRow) (ca : CreatureAccessRow) : CreatureRelation :=
  { id := c.id, user_id := ca.user_id, kind := ca.kind, creator_id := c.creator_id,
    name := c.name, deleted := c.deleted, created := c.created, modified := c.modified }

/-- The key type `CreatureUserId(pub i64, pub i64)` of loaders.rs: field
`.0` is the creature id, `.1` the user id. -/
structure CreatureUserId where
  creature_id : Int
  user_id : Int
deriving DecidableEq, Repr

/-- The batched query of `Loader<CreatureUserId>::load` (loaders.rs):
creatures joined to creature_access, both non-deleted, where
`ca.user_id in unnest($1) or ca.creature_id in unnest($2)` with `$1` the
`.1` components and `$2` the `.0` components of the keys. -/
def queryCreatureUser (db : DB) (u_ids c_ids : List Int) : List CreatureRelation :=
  db.creatures.flatMap (fun c =>
    (db.creature_access.filter (fun ca =>
      decide (ca.creature_id = c.id) && !c.deleted && !ca.deleted &&
        (decide (ca.user_id ∈ u_ids) || decide (ca.creature_id ∈ c_ids)))).map
      (mkRelation c))

/-- Result-map construction of `Loader<CreatureUserId>::load`: each fetched
row is inserted under the composite key `CreatureUserId(c.id, c.user_id)`. -/
def loadCreatureUser (db : DB) (keys : List CreatureUserId) :
    List (CreatureUserId × CreatureRelation) :=
  (queryCreatureUser db (keys.map CreatureUserId.user_id)
      (keys.map CreatureUserId.creature_id)).foldl
    (fun acc c => ainsert acc ⟨c.id, c.user_id⟩ c) []

/-- The batched query of `Loader<CreaturesForUserId>::load` (loaders.rs):
rows where `ca.user_id` is among the requested user ids, access and
creature both non-deleted. -/
def queryCreaturesForUsers (db : DB) (u_ids : List Int) : List CreatureRelation :=
  db.creatures.flatMap (fun c =>
    (db.creature_access.filter (fun ca =>
      decide (ca.creature_id = c.id) && decide (ca.user_id ∈ u_ids) &&
        !ca.deleted && !c.deleted)).map (mkRelation c))

/-- `entry(..).or_insert_with(Vec::new).push(c)` grouping step. -/
def groupStep (acc : List (Int × List CreatureRelation)) (c : CreatureRelation) :
    List (Int × List CreatureRelation) :=
  match alookup acc c.user_id with
  | some l => ainsert acc c.user_id (l ++ [c])
  | none => ainsert acc c.user_id [c]

/-- Result-map construction of `Loader<CreaturesForUserId>::load`. -/
def loadCreaturesForUser (db : DB) (keys : List Int) :
    List (Int × List CreatureRelation) :=
  (queryCreaturesForUsers db keys).foldl groupStep []

/-- `User::creatures` resolver (models.rs): `load_one` for the user's id,
`unwrap_or_else(Vec::new)` on a missing entry. -/
def userCreatures (db : DB) (uid : Int) : List CreatureRelation :=
  (alookup (loadCreaturesForUser db [uid]) uid).getD []

/-- First user produced by the `users u inner join auth_tokens at` lookup
for a list of candidate token rows: for each token row, the join requires
a non-deleted user with `u.id = at.user_id`. -/
def firstUserFor (db : DB) : List AuthTokenRow → Option UserRow
  | [] => none
  | t :: rest =>
    match db.users.find? (fun u => decide (u.id = t.user_id) && !u.deleted) with
    | some u => some u
    | none => firstUserFor db rest

/-- The session-cookie lookup of `run` (main.rs): rows of
`poop.auth_tokens` with the given hash, non-deleted and unexpired
(`at.expires > now()`), joined to a non-deleted user. -/
def authLookup (db : DB) (now : Int) (h : String) : Option UserRow :=
  firstUserFor db
    (db.auth_tokens.filter (fun t =>
      decide (t.hash = h) && !t.deleted && decide (now < t.expires)))

/-- Session validation: recompute the HMAC of the presented raw token and
look it up (main.rs `run`, lines 496-516). -/
def validate_token (cfg : Config) (db : DB) (now : Int) (raw : String) :
    Option UserRow :=
  authLookup db now (hmac_sign cfg.signing_key raw)

/-- `format_set_cookie` (main.rs): the Rust format string
`"N=T; Domain=D; S HttpOnly; Max-Age=M; SameSite=Lax; Path=/"` where `S`
is `"Secure;"` or the empty string. -/
def format_set_cookie (cfg : Config) (token : String) : String :=
  cfg.cookie_name ++ "=" ++ token ++ "; Domain=" ++ cfg.get_real_domain ++ "; " ++
    (if cfg.secure_cookie then "Secure;" else "") ++
    " HttpOnly; Max-Age=" ++ toString cfg.auth_expiration_seconds ++
    "; SameSite=Lax; Path=/"

/-- `login_ctx` (main.rs): hex-encode the 32 random bytes into the raw
token, store the HMAC of the raw token with expiry `now + ttl`, and build
the set-cookie header.  Returns (raw token, cookie header, new db). -/
def login_ctx (cfg : Config) (db : DB) (now : Int) (rand : List Nat)
    (user : UserRow) : String × String × DB :=
  let token := hexEncode rand
  let token_hash := hmac_sign cfg.signing_key token
  let expires := now + (cfg.auth_expiration_seconds : Int)
  ( token, format_set_cookie cfg token,
    { db with auth_tokens :=
        db.auth_tokens ++ [{ user_id := user.id, hash := token_hash,
                             expires := expires, deleted := false }] } )

/-- The `fetch_one` user-by-email lookup of `login` (main.rs): first
non-deleted user with the email, `RowNotFound` otherwise. -/
def userByEmail (db : DB) (email : String) : Except AppError UserRow :=
  match db.users.find? (fun u => decide (u.email = email) && !u.deleted) with
  | some u => .ok u
  | none => .error AppError.DBNotFound

/-- `MutationRoot::login` (main.rs): look the user up by email (mapping a
not-found miss to the vague bad-request error), hex-decode the stored
digest and salt, recompute the digest from the supplied password, compare
in constant time, and on success issue a session.  Returns the user, the
cookie header and the new db. -/
def login (cfg : Config) (db : DB) (now : Int) (rand : List Nat)
    (email pw : String) : Except AppError (UserRow × String × DB) := do
  let user ← (userByEmail db email).mapError
    (fun e => if e.is_db_not_found then AppError.BadRequest "bad request" else e)
  let user_hash ← (hexDecode user.pw_hash).mapError AppError.Hex
  let salt ← (hexDecode user.pw_salt).mapError AppError.Hex
  let this_hash := derive_password_hash (strBytes pw) salt
  if verify_slices_are_equal user_hash this_hash then
    let r := login_ctx cfg db now rand user
    return (user, r.2.1, r.2.2)
  else
    .error (AppError.BadRequest "bad request")

/-- `MutationRoot::logout` (main.rs): 31 fresh random bytes (31 zero bytes
if the generator fails), hex-encoded behind the fixed marker `"xx"`; only
a cookie header is produced, the database is untouched.  Returns
(graphql result, cookie header, db). -/
def logout (cfg : Config) (rand : Option (List Nat)) (db : DB) :
    Bool × String × DB :=
  let bytes := rand.getD (List.replicate 31 0)
  let token := "xx" ++ hexEncode bytes
  (true, format_set_cookie cfg token, db)

/-- `LoginGuard::check`: unauthorized unless a user is in the context. -/
def login_guard_check (ctx_user : Option UserRow) : Except AppError Unit :=
  match ctx_user with
  | none => .error (AppError.Unauthorized "Unauthorized")
  | some _ => .ok ()

/-- Outcome of the graphql_post warp handler: the identity deposited into
the request context, and whether the request itself failed (the handler's
error type is `Infallible`). -/
structure GqlOutcome where
  context_user : Option UserRow
  request_failed : Bool
deriving DecidableEq, Repr

/-- `if let Ok(u) = u { request.data.insert(u) }` — any error outcome of
the session lookup is silently discarded. -/
def install_user (lookup : Except AppError UserRow) : Option UserRow :=
  match lookup with
  | .ok u => some u
  | .error _ => none

/-- The session-cookie query as a fallible lookup: a miss is the
`RowNotFound`-derived error, as `fetch_one` produces it. -/
def session_query (cfg : Config) (db : DB) (now : Int) (cookie : String) :
    Except AppError UserRow :=
  match authLookup db now (hmac_sign cfg.signing_key cookie) with
  | some u => .ok u
  | none => .error AppError.DBNotFound

/-- The request pipeline of `run` (main.rs, lines 496-527) up to schema
execution, with the session lookup outcome passed explicitly so that
arbitrary storage failures can be injected. -/
def graphql_post_with (lookup : Except AppError UserRow) : GqlOutcome :=
  { context_user := install_user lookup, request_failed := false }

/-- The request pipeline of `run` on the pure database model. -/
def graphql_post (cfg : Config) (db : DB) (now : Int) (cookie : Option String) :
    GqlOutcome :=
  match cookie with
  | some c => graphql_post_with (session_query cfg db now c)
  | none => { context_user := none, request_failed := false }

/-- Fresh id for an inserted creature row: Postgres assigns a sequence
value larger than every existing creature id. -/
def fresh_creature_id (db : DB) : Int := (db.creatures.map CreatureRow.id).foldl max 0 + 1

/-- Fresh id for an inserted creature_access row. -/
def fresh_access_id (db : DB) : Int :=
  (db.creature_access.map CreatureAccessRow.id).foldl max 0 + 1

/-- The re-read of `create_creature` (schema.rs): the joined row for the
new creature id, creature and access both non-deleted, `fetch_one` taking
the first row. -/
def selectCreatureById (db : DB) (cid : Int) : Option CreatureRelation :=
  (db.creatures.flatMap (fun c =>
    (db.creature_access.filter (fun ca =>
      decide (ca.creature_id = c.id) && decide (c.id = cid) &&
        !c.deleted && !ca.deleted)).map (mkRelation c))).head?

/-- `MutationRoot::create_creature` (schema.rs).  The three statements run
inside one transaction on one connection; commit/rollback is modelled from
the spec (§5): on any statement failure the visible database is the input
database, on success the transaction state is published.
`access_insert_fails` injects a failure into the second (access-grant)
insert. -/
def create_creature (db : DB) (user : UserRow) (name : String) (now : Int)
    (access_insert_fails : Bool) : Except AppError CreatureRelation × DB :=
  let cid := fresh_creature_id db
  let db1 : DB := { db with creatures := db.creatures ++
    [{ id := cid, creator_id := user.id, name := name, deleted := false,
       created := now, modified := now }] }
  if access_insert_fails then (Except.error AppError.DB, db)
  else
    let db2 : DB := { db1 with creature_access := db1.creature_access ++
      [{ id := fresh_access_id db, creature_id := cid, user_id := user.id,
         creator_id := user.id, kind := "creator", deleted := false }] }
    match selectCreatureById db2 cid with
    | some c => (Except.ok c, db2)
    | none => (Except.error AppError.DBNotFound, db)

/-- Modelled from the spec: the Batch Load Scheduler (§4.4) lives in the
`async_graphql` crate, not under src/; loaders.rs pins its request-scoped
`HashMapCache` configuration (`AppLoader`).  State: the per-request
memoization cache and the log of underlying batched fetch invocations. -/
structure SchedulerState (K V : Type) where
  cache : List (K × Option V)
  fetch_log : List (List K)

/-- The empty per-request scheduler state. -/
def initScheduler {K V : Type} : SchedulerState K V := ⟨[], []⟩

/-- Modelled from the spec: one batch window of logically-concurrent
`load` calls (§4.4) — keys already resolved are served from the cache;
the remaining distinct keys are coalesced into a single underlying
batched fetch whose result map fills the cache (keys absent from the map
resolve to none). -/
def runWindow {K V : Type} [DecidableEq K] (fetch : List K → List (K × V))
    (st : SchedulerState K V) (calls : List K) : SchedulerState K V :=
  let missing := (calls.filter (fun k => (alookup st.cache k).isNone)).dedup
  if missing = [] then st
  else
    { cache := st.cache ++ missing.map (fun k => (k, alookup (fetch missing) k)),
      fetch_log := st.fetch_log ++ [missing] }

/-- Modelled from the spec: a request is a sequence of batch windows run
against a fresh scheduler (§4.4: the cache is created per request and
never evicted during it). -/
def runRequest {K V : Type} [DecidableEq K] (fetch : List K → List (K × V))
    (windows : List (List K)) : SchedulerState K V :=
  windows.foldl (runWindow fetch) initScheduler

/-- The cookie header the spec's wire format describes (§6):
`name=<token>; Domain=<d>; [Secure;] HttpOnly; Max-Age=<seconds>;
SameSite=Lax; Path=/`, the bracketed attribute present exactly when the
secure flag is set. -/
def specCookieHeader (cfg : Config) (token : String) : String :=
  cfg.cookie_name ++ "=" ++ token ++ "; Domain=" ++ cfg.get_real_domain ++ "; " ++
    (if cfg.secure_cookie then "Secure; " else "") ++
    "HttpOnly; Max-Age=" ++ toString cfg.auth_expiration_seconds ++
    "; SameSite=Lax; Path=/"

/-- What `format_set_cookie` actually produces when the secure flag is
off: the empty Secure slot leaves both of its surrounding spaces, so two
spaces precede `HttpOnly`. -/
def insecureCookieHeader (cfg : Config) (token : String) : String :=
  cfg.cookie_name ++ "=" ++ token ++ "; Domain=" ++ cfg.get_real_domain ++ ";  " ++
    "HttpOnly; Max-Age=" ++ toString cfg.auth_expiration_seconds ++
    "; SameSite=Lax; Path=/"

/-! ## Helper lemmas -/

theorem alookup_append {K V : Type} [DecidableEq K] (l1 l2 : List (K × V)) (k : K) :
    alookup (l1 ++ l2) k =
      match alookup l1 k with
      | some v => some v
      | none => alookup l2 k := by
  induction l1 with
  | nil => simp [alookup]
  | cons p rest ih =>
    obtain ⟨k1, v1⟩ := p
    by_cases h : k = k1 <;> simp [alookup, h, ih]

theorem alookup_ainsert {K V : Type} [DecidableEq K] (l : List (K × V)) (k k' : K)
    (v : V) : alookup (ainsert l k v) k' = if k' = k then some v else alookup l k' := by
  induction l with
  | nil => by_cases h : k' = k <;> simp [ainsert, alookup, h]
  | cons p rest ih =>
    obtain ⟨k1, v1⟩ := p
    by_cases h1 : k = k1
    · subst h1
      by_cases h2 : k' = k <;> simp [ainsert, alookup, h2]
    · by_cases h2 : k' = k1
      · subst h2
        have hne : ¬k' = k := fun he => h1 he.symm
        simp [ainsert, alookup, h1, hne]
      · simp [ainsert, alookup, h1, h2, ih]

theorem alookup_map_self {K V : Type} [DecidableEq K] (ks : List K)
    (g : K → V) (k : K) :
    alookup (ks.map (fun x => (x, g x))) k =
      if k ∈ ks then some (g k) else none := by
  induction ks with
  | nil => simp [alookup]
  | cons a rest ih =>
    by_cases h : k = a
    · subst h; simp [alookup]
    · simp [alookup, h, ih, List.mem_cons]

/-! ## Constant-time comparison characterization -/

theorem ctScan_foldl (l : List (Nat × Nat)) (c n : Nat) :
    l.foldl (fun acc p => (acc.1 + (if p.1 = p.2 then 0 else 1), acc.2 + 1)) (c, n) =
      (c + l.countP (fun p => decide (p.1 ≠ p.2)), n + l.length) := by
  induction l generalizing c n with
  | nil => simp
  | cons p rest ih =>
    simp only [List.foldl_cons, List.countP_cons, List.length_cons, ih]
    by_cases h : p.1 = p.2 <;> simp [h] <;> omega

theorem ctScan_eq (a b : List Nat) :
    ctScan a b = ((a.zip b).countP (fun p => decide (p.1 ≠ p.2)), (a.zip b).length) := by
  simpa using ctScan_foldl (a.zip b) 0 0

theorem zip_forall_eq {a b : List Nat} (hlen : a.length = b.length)
    (h : ∀ p ∈ a.zip b, p.1 = p.2) : a = b := by
  induction a generalizing b with
  | nil => cases b <;> simp_all
  | cons x xs ih =>
    cases b with
    | nil => simp_all
    | cons y ys =>
      have hx : x = y := h (x, y) (by simp)
      have : xs = ys := by
        apply ih (by simpa using hlen)
        intro p hp
        exact h p (by simp [hp])
      simp [hx, this]

theorem mem_zip_self {a : List Nat} {p : Nat × Nat} (hp : p ∈ a.zip a) :
    p.1 = p.2 := by
  induction a with
  | nil => simp at hp
  | cons x xs ih =>
    rcases (List.mem_cons.mp hp) with h | h
    · simp [h]
    · exact ih h

theorem verify_slices_are_equal_iff (a b : List Nat) :
    verify_slices_are_equal a b = true ↔ a = b := by
  unfold verify_slices_are_equal
  simp only [Bool.and_eq_true, decide_eq_true_eq, ctScan_eq]
  constructor
  · rintro ⟨hlen, hz⟩
    rw [List.countP_eq_zero] at hz
    refine zip_forall_eq hlen (fun p hp => ?_)
    have := hz p hp
    simpa using this
  · rintro rfl
    refine ⟨rfl, ?_⟩
    rw [List.countP_eq_zero]
    intro p hp
    simp [mem_zip_self hp]

theorem comparison_steps_eq (a b : List Nat) :
    comparison_steps a b = if a.length = b.length then min a.length b.length else 0 := by
  unfold comparison_steps
  rw [ctScan_eq]
  simp [List.length_zip]

/-! ## Login failure lemmas (shared by C5 and C9) -/

theorem login_unknown_email (cfg : Config) (db : DB) (now : Int) (rand : List Nat)
    (email pw : String)
    (h : db.users.find? (fun u => decide (u.email = email) && !u.deleted) = none) :
    login cfg db now rand email pw = Except.error (AppError.BadRequest "bad request") := by
  unfold login userByEmail
  rw [h]
  rfl

theorem login_wrong_password (cfg : Config) (db : DB) (now : Int) (rand : List Nat)
    (email pw : String) (U : UserRow) (uh us : List Nat)
    (hu : db.users.find? (fun u => decide (u.email = email) && !u.deleted) = some U)
    (hh : hexDecode U.pw_hash = Except.ok uh)
    (hs : hexDecode U.pw_salt = Except.ok us)
    (hw : uh ≠ derive_password_hash (strBytes pw) us) :
    login cfg db now rand email pw = Except.error (AppError.BadRequest "bad request") := by
  have hv : verify_slices_are_equal uh (derive_password_hash (strBytes pw) us) = false := by
    rw [← Bool.not_eq_true, verify_slices_are_equal_iff]
    exact hw
  unfold login userByEmail
  rw [hu]
  simp only [Except.mapError, AppError.is_db_not_found, bind, Except.bind, hh, hs, hv,
    Bool.false_eq_true, if_false]

/-- C5: a login attempt with an email matching no active user and a login
attempt with an existing active user's email but a wrong password return
error values of the identical user-visible kind — the same bad-request
error — so the two failure causes are indistinguishable to the client. -/
theorem claim5_login_failures_indistinguishable (cfg : Config) (db : DB) (now : Int)
    (r1 r2 : List Nat) (email1 pw1 email2 pw2 : String) (U : UserRow) (uh us : List Nat)
    (hA : db.users.find? (fun u => decide (u.email = email1) && !u.deleted) = none)
    (hB : db.users.find? (fun u => decide (u.email = email2) && !u.deleted) = some U)
    (hh : hexDecode U.pw_hash = Except.ok uh)
    (hs : hexDecode U.pw_salt = Except.ok us)
    (hw : uh ≠ derive_password_hash (strBytes pw2) us) :
    login cfg db now r1 email1 pw1 = Except.error (AppError.BadRequest "bad request") ∧
    login cfg db now r2 email2 pw2 = Except.error (AppError.BadRequest "bad request") :=
  ⟨login_unknown_email cfg db now r1 email1 pw1 hA,
   login_wrong_password cfg db now r2 email2 pw2 U uh us hB hh hs hw⟩

/-- Concrete instantiation of C5: a database holding one active user whose
stored credential was derived from the password "pw". -/
theorem claim5_login_failures_indistinguishable_witness :
    (DB.mk [⟨1, "real@example.com", "R", hexEncode [9, 9],
        hexEncode (derive_password_hash (strBytes "pw") [9, 9]), false, 0, 0⟩] [] [] []).users.find?
        (fun u => decide (u.email = "missing@example.com") && !u.deleted) = none ∧
    (login ⟨"poop_auth", none, true, 43200, "key"⟩
        (DB.mk [⟨1, "real@example.com", "R", hexEncode [9, 9],
          hexEncode (derive_password_hash (strBytes "pw") [9, 9]), false, 0, 0⟩] [] [] [])
        0 (List.replicate 32 0) "missing@example.com" "x" =
      Except.error (AppError.BadRequest "bad request") ∧
     login ⟨"poop_auth", none, true, 43200, "key"⟩
        (DB.mk [⟨1, "real@example.com", "R", hexEncode [9, 9],
          hexEncode (derive_password_hash (strBytes "pw") [9, 9]), false, 0, 0⟩] [] [] [])
        0 (List.replicate 32 0) "real@example.com" "wrong-password" =
      Except.error (AppError.BadRequest "bad request")) :=
  ⟨by decide,
   claim5_login_failures_indistinguishable ⟨"poop_auth", none, true, 43200, "key"⟩
     (DB.mk [⟨1, "real@example.com", "R", hexEncode [9, 9],
       hexEncode (derive_password_hash (strBytes "pw") [9, 9]), false, 0, 0⟩] [] [] [])
     0 (List.replicate 32 0) (List.replicate 32 0)
     "missing@example.com" "x" "real@example.com" "wrong-password"
     ⟨1, "real@example.com", "R", hexEncode [9, 9],
       hexEncode (derive_password_hash (strBytes "pw") [9, 9]), false, 0, 0⟩
     (derive_password_hash (strBytes "pw") [9, 9]) [9, 9]
     (by decide) (by decide) (by rfl) (by rfl) (by decide)⟩

/-- C9: password verification during login recomputes the digest from the
supplied password and the stored salt and compares against the stored
digest with a comparison whose step count depends only on the operand
lengths, never their content, and login returns the bad-request error when
the digests differ. -/
theorem claim9_constant_time_verification (cfg : Config) (db : DB) (now : Int)
    (rand : List Nat) (email pw : String) (U : UserRow) (uh us : List Nat)
    (hu : db.users.find? (fun u => decide (u.email = email) && !u.deleted) = some U)
    (hh : hexDecode U.pw_hash = Except.ok uh)
    (hs : hexDecode U.pw_salt = Except.ok us)
    (hw : uh ≠ derive_password_hash (strBytes pw) us) :
    login cfg db now rand email pw = Except.error (AppError.BadRequest "bad request") ∧
    (∀ a b : List Nat, verify_slices_are_equal a b = true ↔ a = b) ∧
    (∀ a b a' b' : List Nat, a.length = a'.length → b.length = b'.length →
      comparison_steps a b = comparison_steps a' b') := by
  refine ⟨login_wrong_password cfg db now rand email pw U uh us hu hh hs hw,
    verify_slices_are_equal_iff, ?_⟩
  intro a b a' b' ha hb
  rw [comparison_steps_eq, comparison_steps_eq, ha, hb]

/-- Concrete instantiation of C9. -/
theorem claim9_constant_time_verification_witness :
    hexDecode (hexEncode (derive_password_hash (strBytes "pw") [9, 9])) =
      Except.ok (derive_password_hash (strBytes "pw") [9, 9]) ∧
    login ⟨"poop_auth", none, true, 43200, "key"⟩
        (DB.mk [⟨1, "real@example.com", "R", hexEncode [9, 9],
          hexEncode (derive_password_hash (strBytes "pw") [9, 9]), false, 0, 0⟩] [] [] [])
        0 (List.replicate 32 0) "real@example.com" "wrong-password" =
      Except.error (AppError.BadRequest "bad request") :=
  ⟨by rfl,
   (claim9_constant_time_verification ⟨"poop_auth", none, true, 43200, "key"⟩
     (DB.mk [⟨1, "real@example.com", "R", hexEncode [9, 9],
       hexEncode (derive_password_hash (strBytes "pw") [9, 9]), false, 0, 0⟩] [] [] [])
     0 (List.replicate 32 0) "real@example.com" "wrong-password"
     ⟨1, "real@example.com", "R", hexEncode [9, 9],
       hexEncode (derive_password_hash (strBytes "pw") [9, 9]), false, 0, 0⟩
     (derive_password_hash (strBytes "pw") [9, 9]) [9, 9]
     (by decide) (by rfl) (by rfl) (by decide)).1⟩

/-- C7: logout always returns true, leaves every stored row (in particular
every AuthToken row) untouched so any previously issued raw token
validates exactly as before, and its only effect is the set-cookie header
whose value is a freshly generated random token behind the fixed
two-character marker "xx". -/
theorem claim7_logout_frame_effect (cfg : Config) (rand : Option (List Nat)) (db : DB) :
    (logout cfg rand db).1 = true ∧
    (logout cfg rand db).2.2 = db ∧
    (logout cfg rand db).2.1 =
      format_set_cookie cfg ("xx" ++ hexEncode (rand.getD (List.replicate 31 0))) ∧
    (∀ raw : String, ∀ now : Int,
      validate_token cfg (logout cfg rand db).2.2 now raw = validate_token cfg db now raw) :=
  ⟨rfl, rfl, rfl, fun _ _ => rfl⟩

/-- C10: any failing session-cookie lookup — a storage failure as much as a
not-found miss — is silently discarded: no identity enters the request
context, the request itself does not fail, and guarded operations then
answer Unauthorized. -/
theorem claim10_lookup_failure_degrades_to_anonymous :
    ∀ e : AppError,
      graphql_post_with (Except.error e) =
        { context_user := none, request_failed := false } ∧
      login_guard_check (graphql_post_with (Except.error e)).context_user =
        Except.error (AppError.Unauthorized "Unauthorized") :=
  fun _ => ⟨rfl, rfl⟩

/-! ## Session lookup lemmas -/

theorem firstUserFor_eq_none (db : DB) (ts : List AuthTokenRow)
    (h : ∀ t ∈ ts, db.users.find? (fun u => decide (u.id = t.user_id) && !u.deleted) = none) :
    firstUserFor db ts = none := by
  induction ts with
  | nil => rfl
  | cons t rest ih =>
    unfold firstUserFor
    rw [h t (by simp)]
    exact ih (fun t' ht' => h t' (by simp [ht']))

/-- C6: a presented token whose HMAC matches no stored, non-deleted,
non-expired AuthToken row joined to a non-deleted user validates to
nothing rather than an error: no identity enters the request context and
the request itself does not fail. -/
theorem claim6_unknown_token_is_anonymous (cfg : Config) (db : DB) (now : Int)
    (tok : String)
    (h : ∀ t ∈ db.auth_tokens, t.hash = hmac_sign cfg.signing_key tok →
      t.deleted = false → now < t.expires →
      db.users.find? (fun u => decide (u.id = t.user_id) && !u.deleted) = none) :
    validate_token cfg db now tok = none ∧
    graphql_post cfg db now (some tok) =
      { context_user := none, request_failed := false } := by
  have hv : validate_token cfg db now tok = none := by
    unfold validate_token authLookup
    apply firstUserFor_eq_none
    intro t ht
    rw [List.mem_filter] at ht
    obtain ⟨htm, hp⟩ := ht
    simp only [Bool.and_eq_true, decide_eq_true_eq, Bool.not_eq_true'] at hp
    exact h t htm hp.1.1 hp.1.2 hp.2
  refine ⟨hv, ?_⟩
  unfold validate_token at hv
  simp only [graphql_post, session_query, hv]
  rfl

/-- Concrete instantiation of C6: a database with an active user but no
auth-token rows, presented a token that was never issued. -/
theorem claim6_unknown_token_is_anonymous_witness :
    (∀ t ∈ (DB.mk [⟨1, "a@b.c", "A", "", "", false, 0, 0⟩] [] [] []).auth_tokens,
      t.hash = hmac_sign "key" "never-issued" → t.deleted = false → (0 : Int) < t.expires →
      (DB.mk [⟨1, "a@b.c", "A", "", "", false, 0, 0⟩] [] [] []).users.find?
        (fun u => decide (u.id = t.user_id) && !u.deleted) = none) ∧
    (validate_token ⟨"poop_auth", none, true, 43200, "key"⟩
        (DB.mk [⟨1, "a@b.c", "A", "", "", false, 0, 0⟩] [] [] []) 0 "never-issued" = none ∧
     graphql_post ⟨"poop_auth", none, true, 43200, "key"⟩
        (DB.mk [⟨1, "a@b.c", "A", "", "", false, 0, 0⟩] [] [] []) 0 (some "never-issued") =
      { context_user := none, request_failed := false }) :=
  ⟨by decide,
   claim6_unknown_token_is_anonymous ⟨"poop_auth", none, true, 43200, "key"⟩
     (DB.mk [⟨1, "a@b.c", "A", "", "", false, 0, 0⟩] [] [] []) 0 "never-issued"
     (by decide)⟩

/-! ## Cookie wire format (C8) -/

theorem data_empty : ("" : String).data = [] := rfl

theorem gap_secure (r : List Char) :
    "Secure;".data ++ (" HttpOnly; Max-Age=".data ++ r) =
      "Secure; ".data ++ ("HttpOnly; Max-Age=".data ++ r) := by
  rw [← List.append_assoc, ← List.append_assoc]
  have h : ("Secure;".data ++ " HttpOnly; Max-Age=".data : List Char) =
      "Secure; ".data ++ "HttpOnly; Max-Age=".data := by decide
  rw [h]

theorem gap_insecure (r : List Char) :
    "; ".data ++ (" HttpOnly; Max-Age=".data ++ r) =
      ";  ".data ++ ("HttpOnly; Max-Age=".data ++ r) := by
  rw [← List.append_assoc, ← List.append_assoc]
  have h : ("; ".data ++ " HttpOnly; Max-Age=".data : List Char) =
      ";  ".data ++ "HttpOnly; Max-Age=".data := by decide
  rw [h]

/-- C8 counterexample: with the Secure attribute disabled, the cookie
header built by the code is not the string the spec's wire format
describes — the empty Secure slot leaves a second space before
`HttpOnly`. -/
theorem claim8_cookie_format_counterexample :
    format_set_cookie ⟨"poop_auth", none, false, 43200, "key"⟩ "tok" ≠
      specCookieHeader ⟨"poop_auth", none, false, 43200, "key"⟩ "tok" := by
  decide

/-- C8 amended: the cookie header is exactly the spec's wire format when
the Secure attribute is enabled; when Secure is explicitly disabled for
local development, the header instead carries two spaces before
`HttpOnly`, because the empty Secure slot keeps both of its surrounding
spaces. -/
theorem claim8_cookie_format_amended (cfg : Config) (token : String) :
    format_set_cookie cfg token =
      if cfg.secure_cookie then specCookieHeader cfg token
      else insecureCookieHeader cfg token := by
  cases h : cfg.secure_cookie
  · apply String.ext
    simp only [format_set_cookie, insecureCookieHeader, h, Bool.false_eq_true, if_false,
      String.data_append, data_empty, List.append_nil, List.nil_append, List.append_assoc]
    rw [gap_insecure]
  · apply String.ext
    simp only [format_set_cookie, specCookieHeader, h, if_true,
      String.data_append, List.append_assoc]
    rw [gap_secure]

/-! ## Session issue / validate round trip (C4) -/

/-- C4: issuing a session stores the HMAC of the hex-encoded 32 random
bytes with expiry `now + configured_ttl`; validating the returned raw
token immediately yields the user, and validating it once the configured
expiry duration has elapsed yields nothing. -/
theorem claim4_session_round_trip (cfg : Config) (db : DB) (now : Int)
    (rand : List Nat) (U : UserRow)
    (hlen : rand.length = 32)
    (hfresh : ∀ t ∈ db.auth_tokens, t.hash ≠ hmac_sign cfg.signing_key (hexEncode rand))
    (huser : db.users.find? (fun u => decide (u.id = U.id) && !u.deleted) = some U)
    (httl : 0 < cfg.auth_expiration_seconds) :
    (login_ctx cfg db now rand U).1 = hexEncode rand ∧
    (login_ctx cfg db now rand U).2.2.auth_tokens = db.auth_tokens ++
      [⟨U.id, hmac_sign cfg.signing_key (hexEncode rand),
        now + (cfg.auth_expiration_seconds : Int), false⟩] ∧
    validate_token cfg (login_ctx cfg db now rand U).2.2 now (hexEncode rand) = some U ∧
    (∀ t : Int, now + (cfg.auth_expiration_seconds : Int) ≤ t →
      validate_token cfg (login_ctx cfg db now rand U).2.2 t (hexEncode rand) = none) := by
  have _ := hlen
  have hold : ∀ tq : Int,
      db.auth_tokens.filter (fun t =>
        decide (t.hash = hmac_sign cfg.signing_key (hexEncode rand)) && !t.deleted &&
          decide (tq < t.expires)) = [] := by
    intro tq
    rw [List.filter_eq_nil_iff]
    intro t ht
    simp only [Bool.and_eq_true, decide_eq_true_eq]
    rintro ⟨⟨he, _⟩, _⟩
    exact hfresh t ht he
  refine ⟨rfl, rfl, ?_, ?_⟩
  · unfold validate_token login_ctx authLookup
    simp only []
    rw [List.filter_append, hold]
    have hlt : now < now + (cfg.auth_expiration_seconds : Int) := by omega
    simp [List.filter_cons, hlt, firstUserFor, huser]
  · intro t ht
    unfold validate_token login_ctx authLookup
    simp only []
    rw [List.filter_append, hold]
    have hlt : ¬(t < now + (cfg.auth_expiration_seconds : Int)) := by omega
    simp [List.filter_cons, hlt, firstUserFor]

/-- Concrete instantiation of C4: issue a session for the sole active user
at time 0 and validate the returned raw token. -/
theorem claim4_session_round_trip_witness :
    (List.replicate 32 7).length = 32 ∧
    (∀ t ∈ (DB.mk [⟨1, "a@b.c", "A", "", "", false, 0, 0⟩] [] [] []).auth_tokens,
      t.hash ≠ hmac_sign "key" (hexEncode (List.replicate 32 7))) ∧
    (DB.mk [⟨1, "a@b.c", "A", "", "", false, 0, 0⟩] [] [] []).users.find?
      (fun u => decide (u.id = (1 : Int)) && !u.deleted) =
        some ⟨1, "a@b.c", "A", "", "", false, 0, 0⟩ ∧
    validate_token ⟨"poop_auth", none, true, 43200, "key"⟩
      (login_ctx ⟨"poop_auth", none, true, 43200, "key"⟩
        (DB.mk [⟨1, "a@b.c", "A", "", "", false, 0, 0⟩] [] [] []) 0 (List.replicate 32 7)
        ⟨1, "a@b.c", "A", "", "", false, 0, 0⟩).2.2 0
      (hexEncode (List.replicate 32 7)) = some ⟨1, "a@b.c", "A", "", "", false, 0, 0⟩ :=
  ⟨by decide, by decide, by decide,
   (claim4_session_round_trip ⟨"poop_auth", none, true, 43200, "key"⟩
     (DB.mk [⟨1, "a@b.c", "A", "", "", false, 0, 0⟩] [] [] []) 0 (List.replicate 32 7)
     ⟨1, "a@b.c", "A", "", "", false, 0, 0⟩
     (by decide) (by decide) (by decide) (by decide)).2.2.1⟩

/-! ## Composite access-relation loader (C2) -/

theorem foldl_ainsert_none (rows : List CreatureRelation)
    (acc : List (CreatureUserId × CreatureRelation)) (k : CreatureUserId)
    (hacc : alookup acc k = none)
    (hrows : ∀ c ∈ rows, (⟨c.id, c.user_id⟩ : CreatureUserId) ≠ k) :
    alookup (rows.foldl (fun a c => ainsert a ⟨c.id, c.user_id⟩ c) acc) k = none := by
  induction rows generalizing acc with
  | nil => exact hacc
  | cons c rest ih =>
    simp only [List.foldl_cons]
    apply ih
    · rw [alookup_ainsert]
      have hne : ¬k = (⟨c.id, c.user_id⟩ : CreatureUserId) :=
        fun he => hrows c (by simp) he.symm
      simp [hne, hacc]
    · exact fun c' hc' => hrows c' (by simp [hc'])

/-- C2: the composite creature-access loader resolves a
(creature_id, user_id) key to nothing whenever no active access row exists
for that exact pair — whatever else the broad OR-based batched query
over-fetches, every returned value is mapped back by exact composite-key
equality. -/
theorem claim2_composite_loader_exact_match (db : DB) (keys : List CreatureUserId)
    (cid uid : Int)
    (h : ∀ ca ∈ db.creature_access, ca.deleted = false →
      ¬(ca.creature_id = cid ∧ ca.user_id = uid)) :
    alookup (loadCreatureUser db keys) ⟨cid, uid⟩ = none := by
  unfold loadCreatureUser
  apply foldl_ainsert_none _ _ _ (by rfl)
  intro c hc
  unfold queryCreatureUser at hc
  rw [List.mem_flatMap] at hc
  obtain ⟨cr, _, hcm⟩ := hc
  rw [List.mem_map] at hcm
  obtain ⟨ca, hca, hmk⟩ := hcm
  rw [List.mem_filter] at hca
  obtain ⟨ham, hp⟩ := hca
  simp only [Bool.and_eq_true, decide_eq_true_eq, Bool.not_eq_true'] at hp
  intro hk
  subst hmk
  have h1 : ca.creature_id = cid := by
    have := congrArg CreatureUserId.creature_id hk
    simp [mkRelation] at this
    rw [hp.1.1.1, this]
  have h2 : ca.user_id = uid := by
    have := congrArg CreatureUserId.user_id hk
    simpa [mkRelation] using this
  exact h ca ham hp.1.2 ⟨h1, h2⟩

/-- Concrete instantiation of C2: creature 10 and user 2 both exist and
are active, the batch also asks for the pair (10, 1) whose access row the
broad query fetches, yet the pair (10, 2) — which has no access row —
resolves to nothing. -/
theorem claim2_composite_loader_exact_match_witness :
    (∀ ca ∈ (DB.mk [⟨1, "a@b.c", "A", "", "", false, 0, 0⟩, ⟨2, "b@b.c", "B", "", "", false, 0, 0⟩]
        [⟨10, 1, "Rex", false, 0, 0⟩] [⟨100, 10, 1, 1, "creator", false⟩] []).creature_access,
      ca.deleted = false → ¬(ca.creature_id = 10 ∧ ca.user_id = 2)) ∧
    alookup (loadCreatureUser
      (DB.mk [⟨1, "a@b.c", "A", "", "", false, 0, 0⟩, ⟨2, "b@b.c", "B", "", "", false, 0, 0⟩]
        [⟨10, 1, "Rex", false, 0, 0⟩] [⟨100, 10, 1, 1, "creator", false⟩] [])
      [⟨10, 1⟩, ⟨10, 2⟩]) ⟨10, 2⟩ = none :=
  ⟨by decide,
   claim2_composite_loader_exact_match
     (DB.mk [⟨1, "a@b.c", "A", "", "", false, 0, 0⟩, ⟨2, "b@b.c", "B", "", "", false, 0, 0⟩]
       [⟨10, 1, "Rex", false, 0, 0⟩] [⟨100, 10, 1, 1, "creator", false⟩] [])
     [⟨10, 1⟩, ⟨10, 2⟩] 10 2 (by decide)⟩

/-! ## Transactional creature creation (C3) -/

theorem le_foldl_max (l : List Int) (a : Int) : a ≤ l.foldl max a := by
  induction l generalizing a with
  | nil => exact le_refl a
  | cons x xs ih => exact le_trans (le_max_left a x) (ih (max a x))

theorem mem_le_foldl_max (l : List Int) (a : Int) : ∀ x ∈ l, x ≤ l.foldl max a := by
  induction l generalizing a with
  | nil => simp
  | cons y ys ih =>
    intro x hx
    rcases List.mem_cons.mp hx with rfl | h
    · exact le_trans (le_max_right a x) (le_foldl_max ys (max a x))
    · exact ih (max a y) x h

theorem group_lookup (rows : List CreatureRelation)
    (acc : List (Int × List CreatureRelation)) (uid : Int) :
    (alookup (rows.foldl groupStep acc) uid).getD [] =
      (alookup acc uid).getD [] ++ rows.filter (fun r => decide (r.user_id = uid)) := by
  induction rows generalizing acc with
  | nil => simp
  | cons c rest ih =>
    simp only [List.foldl_cons]
    rw [ih, List.filter_cons]
    by_cases h : uid = c.user_id
    · subst h
      unfold groupStep
      cases hl : alookup acc c.user_id with
      | some l => simp [hl, alookup_ainsert, List.append_assoc]
      | none => simp [hl, alookup_ainsert]
    · have hd : decide (c.user_id = uid) = false := by
        simp
        exact fun he => h he.symm
      unfold groupStep
      cases hl : alookup acc c.user_id with
      | some l => simp [hl, alookup_ainsert, h, hd]
      | none => simp [hl, alookup_ainsert, h, hd]

theorem fresh_id_not_old (db : DB) : ∀ c ∈ db.creatures, c.id ≠ fresh_creature_id db := by
  intro c hc
  have hle : c.id ≤ (db.creatures.map CreatureRow.id).foldl max 0 :=
    mem_le_foldl_max _ 0 c.id (List.mem_map.mpr ⟨c, hc, rfl⟩)
  unfold fresh_creature_id
  omega

theorem select_fresh (db : DB) (user : UserRow) (name : String) (now : Int)
    (hRI : ∀ ca ∈ db.creature_access, ∃ c ∈ db.creatures, ca.creature_id = c.id) :
    selectCreatureById
      ⟨db.users,
       db.creatures ++ [⟨fresh_creature_id db, user.id, name, false, now, now⟩],
       db.creature_access ++
         [⟨fresh_access_id db, fresh_creature_id db, user.id, user.id, "creator", false⟩],
       db.auth_tokens⟩ (fresh_creature_id db) =
      some (mkRelation ⟨fresh_creature_id db, user.id, name, false, now, now⟩
        ⟨fresh_access_id db, fresh_creature_id db, user.id, user.id, "creator", false⟩) := by
  have hca_new : ∀ ca ∈ db.creature_access, ca.creature_id ≠ fresh_creature_id db := by
    intro ca hca
    obtain ⟨c, hc, he⟩ := hRI ca hca
    rw [he]
    exact fresh_id_not_old db c hc
  unfold selectCreatureById
  simp only [List.flatMap_append]
  have hold : db.creatures.flatMap (fun c =>
      ((db.creature_access ++
          [(⟨fresh_access_id db, fresh_creature_id db, user.id, user.id, "creator",
            false⟩ : CreatureAccessRow)]).filter (fun ca =>
        decide (ca.creature_id = c.id) && decide (c.id = fresh_creature_id db) &&
          !c.deleted && !ca.deleted)).map (mkRelation c)) = [] := by
    rw [List.flatMap_eq_nil_iff]
    intro c hc
    have hfil : ((db.creature_access ++
        [(⟨fresh_access_id db, fresh_creature_id db, user.id, user.id, "creator",
          false⟩ : CreatureAccessRow)]).filter (fun ca =>
          decide (ca.creature_id = c.id) && decide (c.id = fresh_creature_id db) &&
            !c.deleted && !ca.deleted)) = [] := by
      rw [List.filter_eq_nil_iff]
      intro ca _
      simp [fresh_id_not_old db c hc]
    rw [hfil]
    rfl
  rw [hold]
  have hnewfil : ((db.creature_access ++
      [(⟨fresh_access_id db, fresh_creature_id db, user.id, user.id, "creator",
        false⟩ : CreatureAccessRow)]).filter (fun ca =>
        decide (ca.creature_id = fresh_creature_id db) && !ca.deleted)) =
      [(⟨fresh_access_id db, fresh_creature_id db, user.id, user.id, "creator",
        false⟩ : CreatureAccessRow)] := by
    rw [List.filter_append]
    have h1 : db.creature_access.filter (fun ca =>
        decide (ca.creature_id = fresh_creature_id db) && !ca.deleted) = [] := by
      rw [List.filter_eq_nil_iff]
      intro ca hca
      simp [hca_new ca hca]
    rw [h1]
    simp
  simp only [List.nil_append, List.flatMap_cons, List.flatMap_nil, List.append_nil,
    eq_self_iff_true, decide_True, Bool.not_false, Bool.and_true]
  rw [hnewfil]
  rfl

theorem claim3_create_creature_atomic (db : DB) (user : UserRow) (name : String)
    (now : Int)
    (hRI : ∀ ca ∈ db.creature_access, ∃ c ∈ db.creatures, ca.creature_id = c.id) :
    (create_creature db user name now true).2 = db ∧
    (create_creature db user name now true).1 = Except.error AppError.DB ∧
    (∃ rel : CreatureRelation,
      (create_creature db user name now false).1 = Except.ok rel ∧
      rel.name = name ∧ rel.user_id = user.id ∧ rel.kind = "creator" ∧
      rel.creator_id = user.id ∧
      rel ∈ userCreatures (create_creature db user name now false).2 user.id) := by
  have hsel := select_fresh db user name now hRI
  have hrun : create_creature db user name now false =
      (Except.ok (mkRelation ⟨fresh_creature_id db, user.id, name, false, now, now⟩
        ⟨fresh_access_id db, fresh_creature_id db, user.id, user.id, "creator", false⟩),
       ⟨db.users,
        db.creatures ++ [⟨fresh_creature_id db, user.id, name, false, now, now⟩],
        db.creature_access ++
          [⟨fresh_access_id db, fresh_creature_id db, user.id, user.id, "creator", false⟩],
        db.auth_tokens⟩) := by
    simp only [create_creature, Bool.false_eq_true, if_false]
    rw [hsel]
  refine ⟨rfl, rfl,
    ⟨mkRelation ⟨fresh_creature_id db, user.id, name, false, now, now⟩
      ⟨fresh_access_id db, fresh_creature_id db, user.id, user.id, "creator", false⟩,
     by rw [hrun], rfl, rfl, rfl, rfl, ?_⟩⟩
  rw [hrun]
  unfold userCreatures loadCreaturesForUser
  rw [group_lookup]
  simp only [alookup, Option.getD_none, List.nil_append]
  rw [List.mem_filter]
  constructor
  · unfold queryCreaturesForUsers
    rw [List.mem_flatMap]
    refine ⟨⟨fresh_creature_id db, user.id, name, false, now, now⟩, by simp, ?_⟩
    rw [List.mem_map]
    refine ⟨⟨fresh_access_id db, fresh_creature_id db, user.id, user.id, "creator", false⟩,
      ?_, rfl⟩
    rw [List.mem_filter]
    refine ⟨by simp, by simp [mkRelation]⟩
  · simp [mkRelation]



/-- Concrete instantiation of C3: creating "Rex" for the sole user of an
otherwise empty database. -/
theorem claim3_create_creature_atomic_witness :
    (∀ ca ∈ (DB.mk [⟨1, "a@b.c", "A", "", "", false, 0, 0⟩] [] [] []).creature_access,
      ∃ c ∈ (DB.mk [⟨1, "a@b.c", "A", "", "", false, 0, 0⟩] [] [] []).creatures,
        ca.creature_id = c.id) ∧
    (create_creature (DB.mk [⟨1, "a@b.c", "A", "", "", false, 0, 0⟩] [] [] [])
      ⟨1, "a@b.c", "A", "", "", false, 0, 0⟩ "Rex" 5 true).2 =
      DB.mk [⟨1, "a@b.c", "A", "", "", false, 0, 0⟩] [] [] [] :=
  ⟨by decide,
   (claim3_create_creature_atomic (DB.mk [⟨1, "a@b.c", "A", "", "", false, 0, 0⟩] [] [] [])
     ⟨1, "a@b.c", "A", "", "", false, 0, 0⟩ "Rex" 5 (by decide)).1⟩

/-! ## Batch Load Scheduler: exactly-once-per-key (C1) -/

theorem runWindow_preserve {K V : Type} [DecidableEq K] (fetch : List K → List (K × V))
    (st : SchedulerState K V) (w : List K) (k : K) (o : Option V)
    (h : alookup st.cache k = some o) :
    alookup (runWindow fetch st w).cache k = some o := by
  unfold runWindow
  by_cases hm : (w.filter (fun x => (alookup st.cache x).isNone)).dedup = []
  · simp [hm, h]
  · simp only [hm, if_false]
    rw [alookup_append, h]

theorem runWindow_covers {K V : Type} [DecidableEq K] (fetch : List K → List (K × V))
    (st : SchedulerState K V) (w : List K) (k : K) (hk : k ∈ w) :
    (alookup (runWindow fetch st w).cache k).isSome := by
  cases hc : alookup st.cache k with
  | some o => rw [runWindow_preserve fetch st w k o hc]; rfl
  | none =>
    have hmem : k ∈ (w.filter (fun x => (alookup st.cache x).isNone)).dedup := by
      rw [List.mem_dedup, List.mem_filter]
      exact ⟨hk, by simp [hc]⟩
    have hne : (w.filter (fun x => (alookup st.cache x).isNone)).dedup ≠ [] :=
      List.ne_nil_of_mem hmem
    unfold runWindow
    simp only [hne, if_false]
    rw [alookup_append, hc, alookup_map_self]
    simp [hmem]

theorem runWindow_none {K V : Type} [DecidableEq K] (fetch : List K → List (K × V))
    (st : SchedulerState K V) (w : List K) (k : K)
    (h1 : alookup st.cache k = none) (h2 : k ∉ w) :
    alookup (runWindow fetch st w).cache k = none := by
  unfold runWindow
  by_cases hm : (w.filter (fun x => (alookup st.cache x).isNone)).dedup = []
  · simp [hm, h1]
  · have hnm : k ∉ (w.filter (fun x => (alookup st.cache x).isNone)).dedup := by
      rw [List.mem_dedup, List.mem_filter]
      exact fun hx => h2 hx.1
    simp only [hm, if_false]
    rw [alookup_append, h1, alookup_map_self]
    simp [hnm]

theorem runWindow_count {K V : Type} [DecidableEq K] (fetch : List K → List (K × V))
    (st : SchedulerState K V) (w : List K) (k : K) :
    (runWindow fetch st w).fetch_log.countP (fun l => decide (k ∈ l)) =
      st.fetch_log.countP (fun l => decide (k ∈ l)) +
        (if (alookup st.cache k).isNone && decide (k ∈ w) then 1 else 0) := by
  unfold runWindow
  by_cases hm : (w.filter (fun x => (alookup st.cache x).isNone)).dedup = []
  · have hfalse : ((alookup st.cache k).isNone && decide (k ∈ w)) = false := by
      cases hN : (alookup st.cache k).isNone with
      | false => simp
      | true =>
        simp only [Bool.true_and, decide_eq_false_iff_not]
        intro hkw
        exact List.ne_nil_of_mem (a := k)
          (by rw [List.mem_dedup, List.mem_filter]; exact ⟨hkw, hN⟩) hm
    simp [hm, hfalse]
  · have hiff : k ∈ (w.filter (fun x => (alookup st.cache x).isNone)).dedup ↔
        ((alookup st.cache k).isNone && decide (k ∈ w)) = true := by
      rw [List.mem_dedup, List.mem_filter, Bool.and_eq_true, decide_eq_true_eq]
      exact ⟨fun hx => ⟨hx.2, hx.1⟩, fun hx => ⟨hx.2, hx.1⟩⟩
    simp only [hm, if_false]
    rw [List.countP_append]
    by_cases hcase : ((alookup st.cache k).isNone && decide (k ∈ w)) = true
    · have hmem := hiff.mpr hcase
      simp [hcase, List.countP_cons, hmem]
    · have hmem : k ∉ (w.filter (fun x => (alookup st.cache x).isNone)).dedup :=
        fun hx => hcase (hiff.mp hx)
      simp [hcase, List.countP_cons, hmem]

theorem runFold_preserve {K V : Type} [DecidableEq K] (fetch : List K → List (K × V))
    (ws : List (List K)) (st : SchedulerState K V) (k : K) (o : Option V)
    (h : alookup st.cache k = some o) :
    alookup ((ws.foldl (runWindow fetch) st)).cache k = some o := by
  induction ws generalizing st with
  | nil => exact h
  | cons w rest ih => exact ih _ (runWindow_preserve fetch st w k o h)

theorem runFold_covers {K V : Type} [DecidableEq K] (fetch : List K → List (K × V))
    (ws : List (List K)) (st : SchedulerState K V) (k : K) (hk : k ∈ ws.flatten) :
    (alookup ((ws.foldl (runWindow fetch) st)).cache k).isSome := by
  induction ws generalizing st with
  | nil => simp at hk
  | cons w rest ih =>
    rw [List.flatten_cons, List.mem_append] at hk
    simp only [List.foldl_cons]
    rcases hk with hw | hr
    · have hs := runWindow_covers fetch st w k hw
      rw [Option.isSome_iff_exists] at hs
      obtain ⟨o, ho⟩ := hs
      rw [runFold_preserve fetch rest _ k o ho]
      rfl
    · exact ih _ hr

theorem runFold_invariant {K V : Type} [DecidableEq K] (fetch : List K → List (K × V))
    (ws : List (List K)) (st : SchedulerState K V) (k : K)
    (h : st.fetch_log.countP (fun l => decide (k ∈ l)) =
      (if (alookup st.cache k).isSome then 1 else 0)) :
    ((ws.foldl (runWindow fetch) st)).fetch_log.countP (fun l => decide (k ∈ l)) =
      (if (alookup ((ws.foldl (runWindow fetch) st)).cache k).isSome then 1 else 0) := by
  induction ws generalizing st with
  | nil => exact h
  | cons w rest ih =>
    simp only [List.foldl_cons]
    apply ih
    rw [runWindow_count]
    cases hc : alookup st.cache k with
    | some o =>
      rw [runWindow_preserve fetch st w k o hc]
      rw [hc] at h
      simp only [Option.isSome_some, if_true] at h
      simp [h]
    | none =>
      rw [hc] at h
      simp only [Option.isSome_none, Bool.false_eq_true, if_false] at h
      by_cases hw : k ∈ w
      · have hs := runWindow_covers fetch st w k hw
        simp [h, hw, hs]
      · rw [runWindow_none fetch st w k hc hw]
        simp [h, hw]

/-- C1: within one request, a key loaded any number of times — several
times inside one batch window or again in later windows — triggers
exactly one underlying batched fetch, and every window that requested the
key observes the one memoized result. -/
theorem claim1_exactly_once_per_key {K V : Type} [DecidableEq K]
    (fetch : List K → List (K × V)) (windows : List (List K)) (k : K)
    (hk : k ∈ windows.flatten) :
    (runRequest fetch windows).fetch_log.countP (fun l => decide (k ∈ l)) = 1 ∧
    (∃ o : Option V, alookup (runRequest fetch windows).cache k = some o ∧
      ∀ n : Nat, k ∈ (windows.take n).flatten →
        alookup (runRequest fetch (windows.take n)).cache k = some o) := by
  constructor
  · have hinv := runFold_invariant fetch windows initScheduler k (by simp [initScheduler, alookup])
    have hcov := runFold_covers fetch windows initScheduler k hk
    unfold runRequest
    rw [hinv]
    simp [hcov]
  · have hcov := runFold_covers fetch windows initScheduler k hk
    rw [Option.isSome_iff_exists] at hcov
    obtain ⟨o, ho⟩ := hcov
    refine ⟨o, ho, ?_⟩
    intro n hn
    have hcovn := runFold_covers fetch (windows.take n) initScheduler k hn
    rw [Option.isSome_iff_exists] at hcovn
    obtain ⟨o', ho'⟩ := hcovn
    have hsplit : windows.foldl (runWindow fetch) initScheduler =
        (windows.drop n).foldl (runWindow fetch)
          ((windows.take n).foldl (runWindow fetch) initScheduler) := by
      rw [← List.foldl_append, List.take_append_drop]
    have hfin : alookup (windows.foldl (runWindow fetch) initScheduler).cache k = some o' := by
      rw [hsplit]
      exact runFold_preserve fetch _ _ k o' ho'
    rw [ho] at hfin
    show alookup ((windows.take n).foldl (runWindow fetch) initScheduler).cache k = some o
    rw [ho']
    exact congrArg some (Option.some.inj hfin).symm

/-- Concrete instantiation of C1: the key 1 is requested twice in one
window and once more in a later window; exactly one underlying fetch
contains it. -/
theorem claim1_exactly_once_per_key_witness :
    (1 : Int) ∈ ([[1, 1, 2], [1], [3, 1]] : List (List Int)).flatten ∧
    (runRequest (fun ks => ks.map (fun k => (k, k * 10)))
      [[1, 1, 2], [1], [3, 1]]).fetch_log.countP (fun l => decide ((1 : Int) ∈ l)) = 1 :=
  ⟨by decide,
   (claim1_exactly_once_per_key (fun ks => ks.map (fun k => (k, k * 10)))
     [[1, 1, 2], [1], [3, 1]] 1 (by decide)).1⟩

end Didpoop
